import Mathlib

/-!
# Verification of the `rust-dns-server` answer-synthesis and serving engine

Shallow embedding of the repository's core (wire encoder in `src/common.rs`,
UDP serving loop in `src/server.rs`, DNS-over-TLS connection handling in
`src/dns_over_tls.rs`) together with theorems settling the frozen claims
about it.

Modelling conventions:
- bytes are `Nat` (each produced byte is already `< 256` by construction:
  length bytes are `≤ 63`, literal bytes are literals, multi-byte integer
  fields are written via `% 256`);
- a DNS name is the list of its labels, each label a list of bytes
  (mirroring `dns_parser::Name::to_string()` followed by `split('.')` —
  labels are the dot-separated pieces);
- Rust's `Vec<u8>` buffers are `List Nat`, passed and returned explicitly;
- fallible Rust functions returning `Result<T, Box<dyn Error>>` become
  `Except String` values; functions mutating a `&mut Vec<u8>` return the
  buffer in both the success and the error case, because Rust keeps the
  partial mutations when an error propagates;
- external I/O (datagram receive/send, the TLS stream, the external packet
  parser and the external recursive resolver) are parameters of the loop
  models, so a theorem can quantify over their outcomes.
-/

namespace RustDns

/-- Big-endian bytes of a 16-bit value (`u16::to_be_bytes`). -/
def u16_be (v : Nat) : List Nat := [v / 256 % 256, v % 256]

/-- Big-endian bytes of a 32-bit value (`u32::to_be_bytes`). -/
def u32_be (v : Nat) : List Nat :=
  [v / 16777216 % 256, v / 65536 % 256, v / 256 % 256, v % 256]

/-- An IPv4 address as its four octets (`std::net::Ipv4Addr`). -/
structure Ipv4 where
  o1 : Nat
  o2 : Nat
  o3 : Nat
  o4 : Nat
deriving DecidableEq, Repr

/-- `Ipv4Addr::octets()`. -/
def Ipv4.octets (a : Ipv4) : List Nat := [a.o1, a.o2, a.o3, a.o4]

/-- `std::net::IpAddr`: a v4 or v6 address (v6 carried as its 16 octets). -/
inductive IpAddr where
  | V4 (a : Ipv4)
  | V6 (octets : List Nat)
deriving DecidableEq, Repr

/-- `dns_parser::RData`, restricted to the variants the code distinguishes:
`A`, `AAAA`, and everything else (the code's `_` match arms). -/
inductive RData where
  | A (a : Ipv4)
  | AAAA (octets : List Nat)
  | other
deriving DecidableEq, Repr

/-- A DNS name as its list of labels (each label a list of bytes).
This is what iterating `name.to_string().split('.')` visits when the labels
are dot-free. -/
abbrev DnsName := List (List Nat)

/-- `dns_parser::ResourceRecord`, the fields the serializer reads.
`cls` mirrors the struct's field; `serialize_resource_record` writes
`Class::IN` unconditionally and never reads `cls`. -/
structure ResourceRecord where
  name : DnsName
  cls : Nat
  ttl : Nat
  data : RData
deriving DecidableEq, Repr

/-- `serialize_name` from `src/common.rs`: for each dot-separated label,
skip it if empty, fail if longer than 63 bytes, otherwise append the length
byte and the label bytes; finally append a terminating zero byte.
The buffer is returned in the error case too (Rust mutates it in place). -/
def serialize_name : DnsName → List Nat → List Nat × Except String Unit
  | [], buf => (buf ++ [0], Except.ok ())
  | label :: rest, buf =>
    if label.isEmpty then
      serialize_name rest buf
    else if label.length > 63 then
      (buf, Except.error "Etiqueta demasiado larga")
    else
      serialize_name rest (buf ++ (label.length :: label))

/-- Write the two big-endian bytes of a 16-bit value at position `pos`
(`buf[data_len_pos..data_len_pos + 2].copy_from_slice(&data_len.to_be_bytes())`). -/
def write_u16_at (buf : List Nat) (pos v : Nat) : List Nat :=
  (buf.set pos (v / 256 % 256)).set (pos + 1) (v % 256)

/-- `serialize_resource_record` from `src/common.rs`: serialize the name,
then the type code (1 for `A`, 28 for `AAAA`, unsupported otherwise), the
class `IN` (1), the TTL, a two-byte length placeholder, the address bytes,
and finally backpatch the placeholder with the number of data bytes. -/
def serialize_resource_record (record : ResourceRecord) (buf : List Nat) :
    List Nat × Except String Unit :=
  match serialize_name record.name buf with
  | (buf1, Except.error e) => (buf1, Except.error e)
  | (buf1, Except.ok ()) =>
    match (match record.data with
           | RData.A _ => some 1
           | RData.AAAA _ => some 28
           | RData.other => none) with
    | none => (buf1, Except.error "Tipo de registro no soportado")
    | some record_type =>
      let buf2 := buf1 ++ u16_be record_type ++ u16_be 1
      let buf3 := buf2 ++ u32_be record.ttl
      let data_len_pos := buf3.length
      let buf4 := buf3 ++ [0, 0]
      match (match record.data with
             | RData.A a => some a.octets
             | RData.AAAA octets => some octets
             | RData.other => none) with
      | none => (buf4, Except.error "Tipo de registro no soportado")
      | some octets =>
        let buf5 := buf4 ++ octets
        let data_len := buf5.length - buf4.length
        (write_u16_at buf5 data_len_pos data_len, Except.ok ())

/-- The 12-byte response header plus echoed question section shared by
`build_dns_response` (`src/dns_over_tls.rs`) and the inline construction in
`run_dns_server` (`src/server.rs`): transaction id, flags `0x81 0x80`,
echoed QDCOUNT, ANCOUNT 1, NSCOUNT 0, ARCOUNT 0, then the original bytes
from offset 12 on. -/
def responseHeader (query : List Nat) : List Nat :=
  query.take 2 ++ [0x81, 0x80] ++ (query.drop 4).take 2 ++
    [0, 1] ++ [0, 0] ++ [0, 0] ++ query.drop 12

/-- `build_dns_response` from `src/dns_over_tls.rs`. -/
def build_dns_response (query : List Nat) (qname : DnsName) (ip : IpAddr)
    (ttl : Nat) : Except String (List Nat) :=
  let rdata := match ip with
    | IpAddr.V4 ipv4 => RData.A ipv4
    | IpAddr.V6 ipv6 => RData.AAAA ipv6
  let record : ResourceRecord :=
    { name := qname, cls := 1, ttl := ttl, data := rdata }
  match serialize_resource_record record (responseHeader query) with
  | (_, Except.error e) => Except.error e
  | (resp, Except.ok ()) => Except.ok resp

/-- The byte encoding `serialize_name` produces for a name whose labels are
all at most 63 bytes long: length-prefixed labels (empty ones skipped)
terminated by a zero byte. -/
def nameBytes : DnsName → List Nat
  | [] => [0]
  | label :: rest =>
    if label.isEmpty then nameBytes rest
    else label.length :: (label ++ nameBytes rest)

/-- A name every serving-path claim quantifies over: labels nonempty and at
most 63 bytes, as the spec's "all labels 1-63 bytes". -/
def validLabels (name : DnsName) : Prop :=
  ∀ l ∈ name, l ≠ [] ∧ l.length ≤ 63

instance (name : DnsName) : Decidable (validLabels name) := by
  unfold validLabels; infer_instance

/-! ## Conformant decoder (spec side)

The spec's round-trip property speaks of "decoding with a conformant DNS
parser"; the decoder below reads back exactly the record layout the
encoder's documentation describes: length-prefixed labels ended by a zero
byte, then big-endian type, class, TTL, data length, and data bytes. -/

/-- Fuel-indexed label-sequence decoder: reads length-prefixed labels until
a zero length byte, refusing lengths over 63 or running past the input. -/
def decodeLabels : Nat → List Nat → Option (DnsName × List Nat)
  | 0, _ => none
  | _ + 1, [] => none
  | _ + 1, 0 :: rest => some ([], rest)
  | fuel + 1, n :: rest =>
    if n ≤ 63 ∧ n ≤ rest.length then
      match decodeLabels fuel (rest.drop n) with
      | some (labels, rem) => some (rest.take n :: labels, rem)
      | none => none
    else none

/-- Decode a wire-format name: enough fuel to consume the whole input. -/
def decode_name (bytes : List Nat) : Option (DnsName × List Nat) :=
  decodeLabels (bytes.length + 1) bytes

/-- Decode one resource record: name, 16-bit type, 16-bit class, 32-bit
TTL, 16-bit data length, then that many data bytes. Returns
`(name, type, class, ttl, data_len, data)`. -/
def decode_rr (bytes : List Nat) :
    Option (DnsName × Nat × Nat × Nat × Nat × List Nat) :=
  match decode_name bytes with
  | none => none
  | some (labels, rest) =>
    match rest with
    | t1 :: t2 :: c1 :: c2 :: s1 :: s2 :: s3 :: s4 :: d1 :: d2 :: dataRest =>
      let rdlen := d1 * 256 + d2
      if rdlen ≤ dataRest.length then
        some (labels, t1 * 256 + t2, c1 * 256 + c2,
              ((s1 * 256 + s2) * 256 + s3) * 256 + s4, rdlen,
              dataRest.take rdlen)
      else none
    | _ => none

/-! ## Parsed packets, cache, metrics -/

/-- `dns_parser::QueryType`, restricted to the variants the TLS handler
distinguishes: `A`, `AAAA`, and everything else (the `_` arm, e.g. MX). -/
inductive QType where
  | A
  | AAAA
  | unsupported
deriving DecidableEq, Repr

/-- A parsed question: the queried name and the query type. -/
structure Question where
  qname : DnsName
  qtype : QType
deriving DecidableEq, Repr

/-- A parsed packet, as far as the serving code reads it: its questions. -/
structure Packet where
  questions : List Question
deriving DecidableEq, Repr

/-- Modelled from the spec: the `lru` crate's `LruCache<String, Vec<u8>>`
behind `CACHE` in `src/dns_over_tls.rs` is an external dependency whose
implementation is not part of this repository; per the spec it is a bounded
least-recently-used map. Modelled as an association list ordered from most
to least recently used; keys are the queried name (`to_string` of the
`qname` is injective on dot-free labels). The capacity 100 comes from the
repository's `LruCache::new(100)`. -/
abbrev Cache := List (DnsName × List Nat)

/-- The cache capacity fixed by `LruCache::new(100)`. -/
def cacheCapacity : Nat := 100

/-- `LruCache::get`: on a hit, move the entry to the front (refresh its
recency) and return its value; on a miss, leave the cache unchanged. -/
def cacheGet (c : Cache) (k : DnsName) : Cache × Option (List Nat) :=
  match c.find? (fun p => p.1 = k) with
  | none => (c, none)
  | some p =>
    ((k, p.2) :: c.filter (fun q => ¬ (q.1 = k)), some p.2)

/-- `LruCache::put`: if the key is present, update it and move it to the
front; otherwise, if at capacity, evict the least-recently-used entry (the
back) and push the new entry at the front. -/
def cachePut (c : Cache) (k : DnsName) (v : List Nat) : Cache :=
  if c.any (fun p => p.1 = k) then
    (k, v) :: c.filter (fun p => ¬ (p.1 = k))
  else if cacheCapacity ≤ c.length then
    (k, v) :: c.dropLast
  else
    (k, v) :: c

/-- The `METRICS` counters of `src/dns_over_tls.rs` (the UDP path in
`src/server.rs` has no access to them). -/
structure Metrics where
  total_queries : Nat
  failed_parses : Nat
deriving DecidableEq, Repr

/-- `DNS_DEFAULT_TTL` handling in `run_dot_server`: the environment value
(already parsed to a number) or 60 when the variable is absent. The parsed
value is bound to `default_ttl` in the source and never used afterwards. -/
def dotDefaultTtl (envValue : Option Nat) : Nat :=
  envValue.getD 60

/-- The fallback address `"192.168.1.1"` used when resolution fails. -/
def fallbackIp : IpAddr := IpAddr.V4 ⟨192, 168, 1, 1⟩

/-- The `"::1"` address the AAAA arm parses. -/
def loopbackV6 : IpAddr :=
  IpAddr.V6 [0, 0, 0, 0, 0, 0, 0, 0, 0, 0, 0, 0, 0, 0, 0, 1]

/-! ## TLS connection handling (`handle_dot_connection`) -/

/-- One iteration of `for question in &packet.questions` in
`handle_dot_connection`: consult the cache first (a hit is written back and
the loop continues); otherwise match the query type — `A` resolves (with
fallback) and builds, `AAAA` builds for `::1`, anything else is skipped
(`continue`); a built response is put in the cache and written back; a
build error propagates (the `?` operator). Returns the new cache, the
payloads passed to `write_all` on the TLS stream, and the outcome.
The TTL passed to `build_dns_response` is the literal `60` in the source. -/
def handleQuestion (buf : List Nat) (resolve : DnsName → Option IpAddr)
    (c : Cache) (q : Question) : Cache × List (List Nat) × Except String Unit :=
  match cacheGet c q.qname with
  | (c1, some response) => (c1, [response], Except.ok ())
  | (c1, none) =>
    let built : Option (Except String (List Nat)) :=
      match q.qtype with
      | QType.A =>
        let ip := (resolve q.qname).getD fallbackIp
        some (build_dns_response buf q.qname ip 60)
      | QType.AAAA =>
        some (build_dns_response buf q.qname loopbackV6 60)
      | QType.unsupported => none
    match built with
    | none => (c1, [], Except.ok ())
    | some (Except.error e) => (c1, [], Except.error e)
    | some (Except.ok response) =>
      (cachePut c1 q.qname response, [response], Except.ok ())

/-- The whole question loop: questions handled in order, stream writes
accumulated; an error aborts the loop (the handler returns `Err`), keeping
the writes already made. -/
def handleQuestions (buf : List Nat) (resolve : DnsName → Option IpAddr)
    (c : Cache) : List Question → Cache × List (List Nat) × Except String Unit
  | [] => (c, [], Except.ok ())
  | q :: qs =>
    match handleQuestion buf resolve c q with
    | (c1, ws, Except.error e) => (c1, ws, Except.error e)
    | (c1, ws, Except.ok ()) =>
      match handleQuestions buf resolve c1 qs with
      | (c2, ws2, r) => (c2, ws ++ ws2, r)

/-- `handle_dot_connection` after the framed read of `buf`: count the
query, parse (a failure increments `failed_parses`, is logged, and the
handler returns `Ok` without writing anything), skip packets with no
questions, otherwise run the question loop. Returns the new cache, the
stream writes, the new metrics, and the outcome. -/
def handlePacket (buf : List Nat) (resolve : DnsName → Option IpAddr)
    (parseFn : List Nat → Except String Packet) (c : Cache) (m : Metrics) :
    Cache × List (List Nat) × Metrics × Except String Unit :=
  let m1 : Metrics := { m with total_queries := m.total_queries + 1 }
  match parseFn buf with
  | Except.error _ =>
    (c, [], { m1 with failed_parses := m1.failed_parses + 1 }, Except.ok ())
  | Except.ok packet =>
    if packet.questions.isEmpty then
      (c, [], m1, Except.ok ())
    else
      match handleQuestions buf resolve c packet.questions with
      | (c2, ws, r) => (c2, ws, m1, r)

/-! ## The two serving loops -/

/-- Outcome of one iteration of the `loop` in `run_dns_server`:
`terminated e` is the `?` operator returning `Err(e)` from the function
(ending the loop), `panicked` is an index-out-of-bounds panic, and
`cont sent` reaches the next iteration having sent `sent`. -/
inductive UdpStep where
  | terminated (e : String)
  | panicked
  | cont (sent : Option (List Nat))
deriving DecidableEq, Repr

/-- Whether a UDP loop iteration reaches the next iteration. -/
def UdpStep.loopContinues : UdpStep → Bool
  | UdpStep.cont _ => true
  | _ => false

/-- The datagram sent by a UDP loop iteration, if any. -/
def UdpStep.sent : UdpStep → Option (List Nat)
  | UdpStep.cont s => s
  | _ => none

/-- One iteration of the `loop` in `run_dns_server` (`src/server.rs`):
`recv_from` failure propagates with `?`; an unparseable datagram is
silently skipped (`if let Ok`); a parsed packet with no questions panics at
`packet.questions[0]`; otherwise the response is built from the first
question (the query type is never examined), `serialize_resource_record`
failure propagates with `?`, and so does `send_to` failure. The function
never touches `METRICS` (which lives in `dns_over_tls.rs`), so the
`failedParses` counter is returned unchanged. -/
def udpIteration (recvResult : Except String (List Nat))
    (parseFn : List Nat → Except String Packet)
    (resolve : DnsName → Option IpAddr)
    (sendResult : List Nat → Except String Unit)
    (failedParses : Nat) : UdpStep × Nat :=
  match recvResult with
  | Except.error e => (UdpStep.terminated e, failedParses)
  | Except.ok query =>
    match parseFn query with
    | Except.error _ => (UdpStep.cont none, failedParses)
    | Except.ok packet =>
      match packet.questions with
      | [] => (UdpStep.panicked, failedParses)
      | q0 :: _ =>
        let ip := (resolve q0.qname).getD fallbackIp
        let rdata := match ip with
          | IpAddr.V4 ipv4 => RData.A ipv4
          | IpAddr.V6 ipv6 => RData.AAAA ipv6
        let record : ResourceRecord :=
          { name := q0.qname, cls := 1, ttl := 60, data := rdata }
        match serialize_resource_record record (responseHeader query) with
        | (_, Except.error e) => (UdpStep.terminated e, failedParses)
        | (resp, Except.ok ()) =>
          match sendResult resp with
          | Except.error e => (UdpStep.terminated e, failedParses)
          | Except.ok () => (UdpStep.cont (some resp), failedParses)

/-- Outcome of one iteration of the accept loop in `run_dot_server`. -/
inductive LoopStep where
  | terminated (e : String)
  | next
deriving DecidableEq, Repr

/-- One iteration of the accept loop in `run_dot_server`
(`src/dns_over_tls.rs`): `accept` failure propagates with `?`; a
rate-limited connection is dropped and the loop continues; otherwise the
connection is handled in a spawned task whose outcome — `taskOutcome`,
covering handshake, framing, parse and per-question processing — is only
logged (`if let Err(e) = ... { error!(...) }`), never propagated. -/
def dotAcceptIteration (acceptResult : Except String Unit)
    (rateLimitOk : Bool) (taskOutcome : Except String Unit) : LoopStep :=
  match acceptResult with
  | Except.error e => LoopStep.terminated e
  | Except.ok () =>
    if rateLimitOk then
      match taskOutcome with
      | Except.error _ => LoopStep.next
      | Except.ok () => LoopStep.next
    else LoopStep.next

/-! ## Encoder characterization -/

/-- The record-type code the serializer writes (1 for A, 28 for AAAA). -/
def rtypeCode : RData → Nat
  | RData.A _ => 1
  | RData.AAAA _ => 28
  | RData.other => 0

/-- The record-data bytes the serializer writes. -/
def rdataOctets : RData → List Nat
  | RData.A a => a.octets
  | RData.AAAA octets => octets
  | RData.other => []

theorem serialize_name_ok (labels : DnsName) (buf : List Nat)
    (h : ∀ l ∈ labels, l.length ≤ 63) :
    serialize_name labels buf = (buf ++ nameBytes labels, Except.ok ()) := by
  induction labels generalizing buf with
  | nil => simp [serialize_name, nameBytes]
  | cons l ls ih =>
    have hlen : l.length ≤ 63 := (h l (by simp))
    have hrest : ∀ x ∈ ls, x.length ≤ 63 := fun x hx => h x (by simp [hx])
    by_cases he : l.isEmpty
    · simp [serialize_name, nameBytes, he, ih _ hrest]
    · have h63 : ¬ (l.length > 63) := by omega
      simp [serialize_name, nameBytes, he, h63, ih _ hrest, List.append_assoc]

theorem write_u16_backpatch (xs rest : List Nat) (v : Nat) :
    write_u16_at (xs ++ 0 :: 0 :: rest) xs.length v =
      xs ++ (v / 256 % 256) :: (v % 256) :: rest := by
  unfold write_u16_at
  rw [List.set_append_right _ _ (Nat.le_refl _)]
  simp only [Nat.sub_self, List.set]
  rw [List.set_append_right _ _ (by omega)]
  have : xs.length + 1 - xs.length = 1 := by omega
  simp [this, List.set]

theorem serialize_rr_eq (name : DnsName) (cls ttl : Nat) (data : RData)
    (buf : List Nat) (h : ∀ l ∈ name, l.length ≤ 63)
    (hd : data ≠ RData.other) :
    serialize_resource_record ⟨name, cls, ttl, data⟩ buf =
      (buf ++ nameBytes name ++ u16_be (rtypeCode data) ++ u16_be 1 ++
         u32_be ttl ++ u16_be (rdataOctets data).length ++ rdataOctets data,
       Except.ok ()) := by
  have hname := serialize_name_ok name buf h
  cases data with
  | other => exact absurd rfl hd
  | A a =>
    unfold serialize_resource_record
    rw [hname]
    simp only [rtypeCode, rdataOctets]
    have hpatch := write_u16_backpatch
      (buf ++ nameBytes name ++ u16_be 1 ++ u16_be 1 ++ u32_be ttl)
      a.octets ((buf ++ nameBytes name ++ u16_be 1 ++ u16_be 1 ++
        u32_be ttl ++ [0, 0] ++ a.octets).length -
        (buf ++ nameBytes name ++ u16_be 1 ++ u16_be 1 ++
          u32_be ttl ++ [0, 0]).length)
    simp only [List.length_append, Ipv4.octets, u16_be, u32_be,
      List.length_cons, List.length_nil] at hpatch ⊢
    simp only [List.append_assoc, List.cons_append, List.nil_append] at hpatch ⊢
    norm_num at hpatch ⊢
    exact hpatch
  | AAAA octets =>
    unfold serialize_resource_record
    rw [hname]
    simp only [rtypeCode, rdataOctets]
    have hpatch := write_u16_backpatch
      (buf ++ nameBytes name ++ u16_be 28 ++ u16_be 1 ++ u32_be ttl)
      octets ((buf ++ nameBytes name ++ u16_be 28 ++ u16_be 1 ++
        u32_be ttl ++ [0, 0] ++ octets).length -
        (buf ++ nameBytes name ++ u16_be 28 ++ u16_be 1 ++
          u32_be ttl ++ [0, 0]).length)
    simp only [List.length_append, u16_be, u32_be,
      List.length_cons, List.length_nil] at hpatch ⊢
    simp only [List.append_assoc, List.cons_append, List.nil_append] at hpatch ⊢
    norm_num at hpatch ⊢
    exact hpatch

/-! ## Decoder correctness on encoder output -/

theorem nameBytes_length_gt (labels : DnsName) (h : validLabels labels) :
    labels.length < (nameBytes labels).length := by
  induction labels with
  | nil => simp [nameBytes]
  | cons l ls ih =>
    obtain ⟨hne, _⟩ := h l (by simp)
    have he : ¬ l.isEmpty := by simp [List.isEmpty_iff, hne]
    have := ih (fun x hx => h x (by simp [hx]))
    simp only [nameBytes, he, if_neg, List.length_cons, List.length_append,
      Bool.false_eq_true, ite_false]
    omega

theorem decodeLabels_nameBytes (labels : DnsName) (rest : List Nat)
    (fuel : Nat) (h : validLabels labels) (hf : labels.length < fuel) :
    decodeLabels fuel (nameBytes labels ++ rest) = some (labels, rest) := by
  induction labels generalizing rest fuel with
  | nil =>
    cases fuel with
    | zero => omega
    | succ f => simp [nameBytes, decodeLabels]
  | cons l ls ih =>
    cases fuel with
    | zero => omega
    | succ f =>
      obtain ⟨hne, hlen⟩ := h l (by simp)
      cases l with
      | nil => exact absurd rfl hne
      | cons x xs =>
        have he : ¬ (x :: xs).isEmpty := by simp
        have hcond : xs.length + 1 ≤ 63 ∧
            xs.length + 1 ≤ ((x :: xs) ++ nameBytes ls ++ rest).length := by
          constructor
          · simpa using hlen
          · simp
        have htake : ((x :: xs) ++ (nameBytes ls ++ rest)).take (xs.length + 1) =
            x :: xs := List.take_left' (by simp)
        have hdrop : ((x :: xs) ++ (nameBytes ls ++ rest)).drop (xs.length + 1) =
            nameBytes ls ++ rest := List.drop_left' (by simp)
        simp only [List.cons_append] at htake hdrop
        have hrec := ih rest f (fun y hy => h y (by simp [hy])) (by
          simp only [List.length_cons] at hf; omega)
        simp only [nameBytes, he, ite_false, List.cons_append, List.length_cons,
          Bool.false_eq_true, if_neg]
        simp only [decodeLabels, List.append_assoc] at *
        rw [if_pos (by simpa [List.append_assoc] using hcond)]
        rw [htake, hdrop, hrec]

theorem decode_name_nameBytes (labels : DnsName) (rest : List Nat)
    (h : validLabels labels) :
    decode_name (nameBytes labels ++ rest) = some (labels, rest) := by
  unfold decode_name
  apply decodeLabels_nameBytes _ _ _ h
  have := nameBytes_length_gt labels h
  simp only [List.length_append]
  omega

theorem decode_rr_encoded (labels : DnsName) (ttl : Nat) (oct : List Nat)
    (h : validLabels labels) (httl : ttl < 4294967296) (hoct : oct.length = 4) :
    decode_rr (nameBytes labels ++ [0, 1] ++ [0, 1] ++ u32_be ttl ++
        [0, 4] ++ oct) =
      some (labels, 1, 1, ttl, 4, oct) := by
  have hdec := decode_name_nameBytes labels
    ([0, 1] ++ [0, 1] ++ u32_be ttl ++ [0, 4] ++ oct) h
  unfold decode_rr
  rw [show nameBytes labels ++ [0, 1] ++ [0, 1] ++ u32_be ttl ++ [0, 4] ++ oct =
      nameBytes labels ++ ([0, 1] ++ [0, 1] ++ u32_be ttl ++ [0, 4] ++ oct) by
    simp [List.append_assoc]]
  rw [hdec]
  simp only [u32_be, List.cons_append, List.nil_append]
  rw [if_pos (by simpa using hoct.ge)]
  have htake : oct.take (0 * 256 + 4) = oct := by
    simpa using List.take_of_length_le hoct.le
  rw [htake]
  norm_num
  omega

/-! ## Claim C3 -/

/-- Claim C3: for every valid triple of queried name (all labels 1-63
bytes), IPv4 address and TTL, and every well-formed single-question raw
query (at least the 12-byte header), `build_dns_response` succeeds and its
output copies the query's bytes [0,2) (transaction id), carries the fixed
flags `0x81 0x80`, echoes the query's bytes [4,6) as QDCOUNT, has ANCOUNT
1 and NSCOUNT/ARCOUNT 0, copies the query's bytes [12,end) verbatim, and
its appended resource record decodes back to the same name, type A (1),
class IN (1), the same TTL and the same 4 address bytes, with the
backpatched data-length field equal to 4, the number of address bytes. -/
theorem c3_build_response_wire_format (labels : DnsName) (a : Ipv4)
    (ttl : Nat) (query : List Nat) (hl : validLabels labels)
    (httl : ttl < 4294967296) (hq : 12 ≤ query.length) :
    ∃ resp, build_dns_response query labels (IpAddr.V4 a) ttl = Except.ok resp ∧
      resp.take 2 = query.take 2 ∧
      (resp.drop 2).take 2 = [0x81, 0x80] ∧
      (resp.drop 4).take 2 = (query.drop 4).take 2 ∧
      (resp.drop 6).take 6 = [0, 1, 0, 0, 0, 0] ∧
      (resp.drop 12).take (query.length - 12) = query.drop 12 ∧
      decode_rr (resp.drop query.length) =
        some (labels, 1, 1, ttl, 4, a.octets) := by
  have hser := serialize_rr_eq labels 1 ttl (RData.A a) (responseHeader query)
    (fun l hmem => (hl l hmem).2) (by simp)
  simp only [rtypeCode, rdataOctets] at hser
  have hu1 : u16_be 1 = [0, 1] := by norm_num [u16_be]
  have hlen4 : (Ipv4.octets a).length = 4 := by simp [Ipv4.octets]
  rw [hu1, hlen4, show u16_be 4 = [0, 4] from by norm_num [u16_be]] at hser
  have hbuild : build_dns_response query labels (IpAddr.V4 a) ttl =
      Except.ok (responseHeader query ++ nameBytes labels ++ [0, 1] ++ [0, 1] ++
        u32_be ttl ++ [0, 4] ++ a.octets) := by
    unfold build_dns_response
    simp only [hser]
  have h2 : (query.take 2).length = 2 := by
    simp [List.length_take]; omega
  have h46 : ((query.drop 4).take 2).length = 2 := by
    simp [List.length_take, List.length_drop]; omega
  have h12 : (query.drop 12).length = query.length - 12 := by
    simp [List.length_drop]
  refine ⟨_, hbuild, ?_, ?_, ?_, ?_, ?_, ?_⟩
  · rw [show responseHeader query ++ nameBytes labels ++ [0, 1] ++ [0, 1] ++
        u32_be ttl ++ [0, 4] ++ a.octets =
        query.take 2 ++ ([0x81, 0x80] ++ (query.drop 4).take 2 ++
          [0, 1, 0, 0, 0, 0] ++ query.drop 12 ++ (nameBytes labels ++
          [0, 1] ++ [0, 1] ++ u32_be ttl ++ [0, 4] ++ a.octets)) from by
      simp [responseHeader, List.append_assoc]]
    rw [List.take_left' h2]
  · rw [show responseHeader query ++ nameBytes labels ++ [0, 1] ++ [0, 1] ++
        u32_be ttl ++ [0, 4] ++ a.octets =
        query.take 2 ++ ([0x81, 0x80] ++ ((query.drop 4).take 2 ++
          [0, 1, 0, 0, 0, 0] ++ query.drop 12 ++ (nameBytes labels ++
          [0, 1] ++ [0, 1] ++ u32_be ttl ++ [0, 4] ++ a.octets))) from by
      simp [responseHeader, List.append_assoc]]
    rw [List.drop_left' h2, List.take_left' (by simp)]
  · rw [show responseHeader query ++ nameBytes labels ++ [0, 1] ++ [0, 1] ++
        u32_be ttl ++ [0, 4] ++ a.octets =
        (query.take 2 ++ [0x81, 0x80]) ++ ((query.drop 4).take 2 ++
          ([0, 1, 0, 0, 0, 0] ++ query.drop 12 ++ (nameBytes labels ++
          [0, 1] ++ [0, 1] ++ u32_be ttl ++ [0, 4] ++ a.octets))) from by
      simp [responseHeader, List.append_assoc]]
    rw [List.drop_left' (by simp [h2]), List.take_left' h46]
  · rw [show responseHeader query ++ nameBytes labels ++ [0, 1] ++ [0, 1] ++
        u32_be ttl ++ [0, 4] ++ a.octets =
        (query.take 2 ++ [0x81, 0x80] ++ (query.drop 4).take 2) ++
          ([0, 1, 0, 0, 0, 0] ++ (query.drop 12 ++ (nameBytes labels ++
          [0, 1] ++ [0, 1] ++ u32_be ttl ++ [0, 4] ++ a.octets))) from by
      simp [responseHeader, List.append_assoc]]
    rw [List.drop_left' (by simp [h2, h46]), List.take_left' (by simp)]
  · rw [show responseHeader query ++ nameBytes labels ++ [0, 1] ++ [0, 1] ++
        u32_be ttl ++ [0, 4] ++ a.octets =
        (query.take 2 ++ [0x81, 0x80] ++ (query.drop 4).take 2 ++
          [0, 1, 0, 0, 0, 0]) ++ (query.drop 12 ++ (nameBytes labels ++
          [0, 1] ++ [0, 1] ++ u32_be ttl ++ [0, 4] ++ a.octets)) from by
      simp [responseHeader, List.append_assoc]]
    rw [List.drop_left' (by simp [h2, h46]), List.take_left' h12]
  · rw [show responseHeader query ++ nameBytes labels ++ [0, 1] ++ [0, 1] ++
        u32_be ttl ++ [0, 4] ++ a.octets =
        (query.take 2 ++ [0x81, 0x80] ++ (query.drop 4).take 2 ++
          [0, 1, 0, 0, 0, 0] ++ query.drop 12) ++ (nameBytes labels ++
          [0, 1] ++ [0, 1] ++ u32_be ttl ++ [0, 4] ++ a.octets) from by
      simp [responseHeader, List.append_assoc]]
    rw [List.drop_left' (by simp [h2, h46, h12]; omega)]
    exact decode_rr_encoded labels ttl a.octets hl httl (by simp [Ipv4.octets])

/-- Witness for C3 at the query for name `a`, address `192.168.1.1`,
TTL 60. -/
theorem c3_build_response_wire_format_witness :
    ∃ resp,
      build_dns_response
        [0, 0, 1, 32, 0, 1, 0, 0, 0, 0, 0, 0, 1, 97, 0, 0, 1, 0, 1]
        [[97]] (IpAddr.V4 ⟨192, 168, 1, 1⟩) 60 = Except.ok resp ∧
      resp.take 2 = [0, 0] ∧
      (resp.drop 2).take 2 = [0x81, 0x80] ∧
      (resp.drop 4).take 2 = [0, 1] ∧
      (resp.drop 6).take 6 = [0, 1, 0, 0, 0, 0] ∧
      (resp.drop 12).take 7 = [1, 97, 0, 0, 1, 0, 1] ∧
      decode_rr (resp.drop 19) =
        some ([[97]], 1, 1, 60, 4, [192, 168, 1, 1]) := by
  obtain ⟨resp, h1, h2, h3, h4, h5, h6, h7⟩ :=
    c3_build_response_wire_format [[97]] ⟨192, 168, 1, 1⟩ 60
      [0, 0, 1, 32, 0, 1, 0, 0, 0, 0, 0, 0, 1, 97, 0, 0, 1, 0, 1]
      (by decide) (by decide) (by decide)
  exact ⟨resp, h1, by simpa using h2, h3, by simpa using h4, h5,
    by simpa using h6, by simpa [Ipv4.octets] using h7⟩

/-! ## Encoding failure on oversized labels -/

theorem serialize_name_error (labels : DnsName) (buf : List Nat)
    (h : ∃ l ∈ labels, 63 < l.length) :
    (serialize_name labels buf).2 = Except.error "Etiqueta demasiado larga" := by
  induction labels generalizing buf with
  | nil => simp at h
  | cons l ls ih =>
    obtain ⟨x, hx, hxlen⟩ := h
    by_cases he : l.isEmpty
    · have hmem : x ∈ ls := by
        rcases List.mem_cons.mp hx with rfl | hx'
        · exfalso
          have : x = [] := by simpa [List.isEmpty_iff] using he
          subst this; simp at hxlen
        · exact hx'
      simp [serialize_name, he, ih _ ⟨x, hmem, hxlen⟩]
    · by_cases h63 : l.length > 63
      · simp [serialize_name, he, h63]
      · have hmem : x ∈ ls := by
          rcases List.mem_cons.mp hx with rfl | hx'
          · omega
          · exact hx'
        simp [serialize_name, he, h63, ih _ ⟨x, hmem, hxlen⟩]

theorem serialize_rr_error (record : ResourceRecord) (buf : List Nat)
    (h : ∃ l ∈ record.name, 63 < l.length) :
    (serialize_resource_record record buf).2 =
      Except.error "Etiqueta demasiado larga" := by
  have hsn := serialize_name_error record.name buf h
  rcases he : serialize_name record.name buf with ⟨buf1, r⟩
  rw [he] at hsn
  simp only at hsn
  subst hsn
  unfold serialize_resource_record
  rw [he]

theorem build_dns_response_error (query : List Nat) (qname : DnsName)
    (ip : IpAddr) (ttl : Nat) (h : ∃ l ∈ qname, 63 < l.length) :
    build_dns_response query qname ip ttl =
      Except.error "Etiqueta demasiado larga" := by
  unfold build_dns_response
  cases ip with
  | V4 a =>
    have herr := serialize_rr_error ⟨qname, 1, ttl, RData.A a⟩
      (responseHeader query) h
    rcases he : serialize_resource_record ⟨qname, 1, ttl, RData.A a⟩
        (responseHeader query) with ⟨b, r⟩
    rw [he] at herr
    simp only at herr
    subst herr
    simp only [he]
  | V6 o =>
    have herr := serialize_rr_error ⟨qname, 1, ttl, RData.AAAA o⟩
      (responseHeader query) h
    rcases he : serialize_resource_record ⟨qname, 1, ttl, RData.AAAA o⟩
        (responseHeader query) with ⟨b, r⟩
    rw [he] at herr
    simp only at herr
    subst herr
    simp only [he]

/-- `build_dns_response` always succeeds on a name whose labels are all at
most 63 bytes, whatever the address variant. -/
theorem build_dns_response_ok (query : List Nat) (qname : DnsName)
    (ip : IpAddr) (ttl : Nat) (h : ∀ l ∈ qname, l.length ≤ 63) :
    ∃ resp, build_dns_response query qname ip ttl = Except.ok resp := by
  cases ip with
  | V4 a =>
    exact ⟨responseHeader query ++ nameBytes qname ++ u16_be (rtypeCode (RData.A a)) ++
        u16_be 1 ++ u32_be ttl ++ u16_be (rdataOctets (RData.A a)).length ++
        rdataOctets (RData.A a), by
      unfold build_dns_response
      simp only [serialize_rr_eq qname 1 ttl (RData.A a) _ h (by simp)]⟩
  | V6 o =>
    exact ⟨responseHeader query ++ nameBytes qname ++ u16_be (rtypeCode (RData.AAAA o)) ++
        u16_be 1 ++ u32_be ttl ++ u16_be (rdataOctets (RData.AAAA o)).length ++
        rdataOctets (RData.AAAA o), by
      unfold build_dns_response
      simp only [serialize_rr_eq qname 1 ttl (RData.AAAA o) _ h (by simp)]⟩

/-! ## Claim C8 -/

/-- Claim C8: a resource record whose name contains a label longer than 63
bytes makes `serialize_resource_record` return an encoding failure, and no
bytes of that response reach the peer: the TLS question handler performs no
stream write for it, and the UDP iteration sends no datagram (it terminates
the loop with the error instead of calling `send_to`). -/
theorem c8_long_label_fails_nothing_sent :
    (∀ (record : ResourceRecord) (buf : List Nat),
      (∃ l ∈ record.name, 63 < l.length) →
      (serialize_resource_record record buf).2 =
        Except.error "Etiqueta demasiado larga") ∧
    (∀ (buf : List Nat) (resolve : DnsName → Option IpAddr)
        (c : Cache) (q : Question),
      (∃ l ∈ q.qname, 63 < l.length) → (cacheGet c q.qname).2 = none →
      (handleQuestion buf resolve c q).2.1 = []) ∧
    (∀ (query : List Nat) (parseFn : List Nat → Except String Packet)
        (resolve : DnsName → Option IpAddr)
        (sendResult : List Nat → Except String Unit) (m : Nat)
        (packet : Packet) (q0 : Question) (qs : List Question),
      parseFn query = Except.ok packet → packet.questions = q0 :: qs →
      (∃ l ∈ q0.qname, 63 < l.length) →
      UdpStep.sent (udpIteration (Except.ok query) parseFn resolve
        sendResult m).1 = none) := by
  refine ⟨serialize_rr_error, ?_, ?_⟩
  · intro buf resolve c q hlong hmiss
    unfold handleQuestion
    rcases hc : cacheGet c q.qname with ⟨c1, r⟩
    rw [hc] at hmiss
    simp only at hmiss
    subst hmiss
    cases hq : q.qtype <;>
      simp [hc, hq, build_dns_response_error _ _ _ _ hlong]
  · intro query parseFn resolve sendResult m packet q0 qs hparse hqs hlong
    simp only [udpIteration, hparse, hqs]
    rcases hip : (resolve q0.qname).getD fallbackIp with a | o
    · simp only [hip]
      have herr := serialize_rr_error ⟨q0.qname, 1, 60, RData.A a⟩
        (responseHeader query) hlong
      rcases he : serialize_resource_record ⟨q0.qname, 1, 60, RData.A a⟩
          (responseHeader query) with ⟨b, r⟩
      rw [he] at herr
      simp only at herr
      subst herr
      simp [he, UdpStep.sent]
    · simp only [hip]
      have herr := serialize_rr_error ⟨q0.qname, 1, 60, RData.AAAA o⟩
        (responseHeader query) hlong
      rcases he : serialize_resource_record ⟨q0.qname, 1, 60, RData.AAAA o⟩
          (responseHeader query) with ⟨b, r⟩
      rw [he] at herr
      simp only at herr
      subst herr
      simp [he, UdpStep.sent]

/-- Witness for C8 at a name with a single 64-byte label. -/
theorem c8_long_label_fails_nothing_sent_witness :
    (serialize_resource_record
      ⟨[List.replicate 64 97], 1, 60, RData.A ⟨192, 168, 1, 1⟩⟩ []).2 =
        Except.error "Etiqueta demasiado larga" ∧
    (handleQuestion [] (fun _ => none) []
      ⟨[List.replicate 64 97], QType.A⟩).2.1 = [] ∧
    UdpStep.sent (udpIteration (Except.ok (List.replicate 12 0))
      (fun _ => Except.ok ⟨[⟨[List.replicate 64 97], QType.A⟩]⟩)
      (fun _ => none) (fun _ => Except.ok ()) 0).1 = none := by
  refine ⟨c8_long_label_fails_nothing_sent.1 _ [] ?_,
    c8_long_label_fails_nothing_sent.2.1 [] (fun _ => none) []
      ⟨[List.replicate 64 97], QType.A⟩ ?_ (by decide),
    c8_long_label_fails_nothing_sent.2.2 (List.replicate 12 0)
      (fun _ => Except.ok ⟨[⟨[List.replicate 64 97], QType.A⟩]⟩)
      (fun _ => none) (fun _ => Except.ok ()) 0
      ⟨[⟨[List.replicate 64 97], QType.A⟩]⟩
      ⟨[List.replicate 64 97], QType.A⟩ [] rfl rfl ?_⟩ <;>
  exact ⟨List.replicate 64 97, by simp, by simp⟩

/-! ## Claim C9: the bounded-LRU cache contract -/

theorem cacheGet_head (k : DnsName) (v : List Nat) (rest : Cache) :
    (cacheGet ((k, v) :: rest) k).2 = some v := by
  simp [cacheGet, List.find?]

/-- Claim C9: immediately after `insert(name, bytes)`, `lookup(name)`
returns `bytes`; a lookup hit moves the entry to the front (refreshes its
recency); the entry count never exceeds the capacity 100; an insert of a
new name at capacity evicts exactly the least-recently-used (last) entry;
and a lookup never removes any entry (the model has no clock and no
TTL-based removal: these five operations are the only state changes). -/
theorem c9_cache_lru_contract :
    (∀ (c : Cache) (k : DnsName) (v : List Nat),
      (cacheGet (cachePut c k v) k).2 = some v) ∧
    (∀ (c c' : Cache) (k : DnsName) (v : List Nat),
      cacheGet c k = (c', some v) → c'.head? = some (k, v)) ∧
    (∀ (c : Cache) (k : DnsName) (v : List Nat),
      c.length ≤ cacheCapacity → (cachePut c k v).length ≤ cacheCapacity) ∧
    (∀ (c : Cache) (k : DnsName) (v : List Nat),
      c.length = cacheCapacity → (∀ p ∈ c, p.1 ≠ k) →
      cachePut c k v = (k, v) :: c.dropLast) ∧
    (∀ (c : Cache) (k k' : DnsName),
      (∃ p ∈ (cacheGet c k).1, p.1 = k') ↔ (∃ p ∈ c, p.1 = k')) := by
  refine ⟨?_, ?_, ?_, ?_, ?_⟩
  · intro c k v
    unfold cachePut
    split_ifs <;> exact cacheGet_head k v _
  · intro c c' k v h
    unfold cacheGet at h
    cases hf : c.find? (fun p => p.1 = k) with
    | none => rw [hf] at h; simp at h
    | some p =>
      rw [hf] at h
      simp only [Prod.mk.injEq, Option.some.injEq] at h
      obtain ⟨hc', hv⟩ := h
      subst hc'
      simp [hv]
  · intro c k v hle
    unfold cachePut
    split_ifs with h1 h2
    · have hlt : (c.filter (fun p => ¬ (p.1 = k))).length < c.length := by
        rw [List.length_filter_lt_length_iff_exists]
        obtain ⟨x, hx, hpx⟩ := List.any_eq_true.mp h1
        exact ⟨x, hx, by simpa using hpx⟩
      simp only [List.length_cons]
      omega
    · have := List.length_dropLast c
      simp only [List.length_cons, this]
      unfold cacheCapacity at *
      omega
    · simp only [List.length_cons]
      unfold cacheCapacity at *
      omega
  · intro c k v hlen hfresh
    have hany : c.any (fun p => p.1 = k) = false := by
      rw [List.any_eq_false]
      intro x hx
      simpa using hfresh x hx
    unfold cachePut
    rw [hany]
    simp [hlen, cacheCapacity]
  · intro c k k'
    unfold cacheGet
    cases hf : c.find? (fun p => p.1 = k) with
    | none => simp
    | some p =>
      have hp : p.1 = k := by simpa using List.find?_some hf
      have hpm : p ∈ c := List.mem_of_find?_eq_some hf
      simp only [List.mem_cons, List.mem_filter]
      constructor
      · rintro ⟨x, hx | hx, hxk⟩
        · rw [hx] at hxk
          exact ⟨p, hpm, by simpa [hp] using hxk⟩
        · exact ⟨x, hx.1, hxk⟩
      · rintro ⟨x, hx, hxk⟩
        by_cases hxkk : x.1 = k
        · exact ⟨(k, p.2), Or.inl rfl, by simp [← hxkk, hxk]⟩
        · exact ⟨x, Or.inr ⟨hx, by simpa using hxkk⟩, hxk⟩

/-- A cache filled to the capacity of 100 distinct names, for exercising
the eviction branch. -/
def fullCache : Cache := (List.range 100).map (fun i => ([[i]], ([] : List Nat)))

/-- Witness for C9: each part of the LRU contract at concrete inputs,
including an eviction at the exact capacity of 100. -/
theorem c9_cache_lru_contract_witness :
    (cacheGet (cachePut [] [[97]] [1]) [[97]]).2 = some [1] ∧
    ([([[98]], [2]), ([[97]], [1])] : Cache).head? = some ([[98]], [2]) ∧
    (cachePut [] [[97]] [1]).length ≤ cacheCapacity ∧
    cachePut fullCache [[100]] [7] = ([[100]], [7]) :: fullCache.dropLast ∧
    ((∃ p ∈ (cacheGet [([[97]], [1])] [[97]]).1, p.1 = [[97]]) ↔
      (∃ p ∈ ([([[97]], [1])] : Cache), p.1 = [[97]])) := by
  refine ⟨c9_cache_lru_contract.1 [] [[97]] [1],
    c9_cache_lru_contract.2.1 [([[97]], [1]), ([[98]], [2])] _ [[98]] [2]
      (by decide),
    c9_cache_lru_contract.2.2.1 [] [[97]] [1] (by decide),
    c9_cache_lru_contract.2.2.2.1 fullCache [[100]] [7] (by decide) (by decide),
    c9_cache_lru_contract.2.2.2.2 [([[97]], [1])] [[97]] [[97]]⟩

/-! ## Claim C10 -/

/-- Claim C10: on the TLS path the cache is consulted before the
query-type check and is keyed by the name alone: whenever the question's
name is cached, the handler writes exactly the previously cached bytes,
whatever the current query's raw bytes (hence its transaction id) and
whatever its query type — including an otherwise-unsupported type. -/
theorem c10_cache_hit_bypasses_qtype (buf : List Nat)
    (resolve : DnsName → Option IpAddr) (c c1 : Cache) (q : Question)
    (v : List Nat) (h : cacheGet c q.qname = (c1, some v)) :
    handleQuestion buf resolve c q = (c1, [v], Except.ok ()) := by
  unfold handleQuestion
  rw [h]

/-- Witness for C10: an MX-style (unsupported-type) query for a cached
name receives the cached bytes. -/
theorem c10_cache_hit_bypasses_qtype_witness :
    handleQuestion [1, 2, 3] (fun _ => none) [([[97]], [9, 9])]
      ⟨[[97]], QType.unsupported⟩ =
      ([([[97]], [9, 9])], [[9, 9]], Except.ok ()) :=
  c10_cache_hit_bypasses_qtype [1, 2, 3] (fun _ => none) [([[97]], [9, 9])]
    [([[97]], [9, 9])] ⟨[[97]], QType.unsupported⟩ [9, 9] (by decide)

/-! ## Claim C5 -/

/-- An `A` question with a valid name always produces exactly one stream
write, whether it hits the cache or is freshly built. -/
theorem handleQuestion_A_ok (buf : List Nat)
    (resolve : DnsName → Option IpAddr) (c : Cache) (q : Question)
    (hA : q.qtype = QType.A) (hvalid : validLabels q.qname) :
    ∃ c1 w, handleQuestion buf resolve c q = (c1, [w], Except.ok ()) := by
  unfold handleQuestion
  rcases hc : cacheGet c q.qname with ⟨c1, r⟩
  cases r with
  | some resp => exact ⟨c1, resp, by simp [hc]⟩
  | none =>
    obtain ⟨resp, hresp⟩ := build_dns_response_ok buf q.qname
      ((resolve q.qname).getD fallbackIp) 60 (fun l hl => (hvalid l hl).2)
    exact ⟨cachePut c1 q.qname resp, resp, by simp [hc, hA, hresp]⟩

/-- Claim C5, counterexample: on a parsed two-question packet (two `A`
questions for the names `a` and `b`), the connection handler writes two
responses, not at most one. -/
theorem c5_two_questions_two_writes_counterexample :
    ((handlePacket
        ([0, 0, 1, 32, 0, 2, 0, 0, 0, 0, 0, 0] ++
          [1, 97, 0, 0, 1, 0, 1] ++ [1, 98, 0, 0, 1, 0, 1])
        (fun _ => none)
        (fun _ => Except.ok ⟨[⟨[[97]], QType.A⟩, ⟨[[98]], QType.A⟩]⟩)
        [] ⟨0, 0⟩).2.1).length = 2 ∧ ¬ (2 ≤ 1) := by
  exact ⟨rfl, by decide⟩

/-- Claim C5 as amended: the `for question in &packet.questions` loop does
not stop after the first question; every question is processed in order,
and each answerable question (here: every `A` question with a valid name)
produces its own response write, so a packet with n such questions yields
n writes and the handler finishes without error. -/
theorem c5_every_question_answered (buf : List Nat)
    (resolve : DnsName → Option IpAddr) (c : Cache) (qs : List Question)
    (h : ∀ q ∈ qs, q.qtype = QType.A ∧ validLabels q.qname) :
    (handleQuestions buf resolve c qs).2.1.length = qs.length ∧
    (handleQuestions buf resolve c qs).2.2 = Except.ok () := by
  induction qs generalizing c with
  | nil => simp [handleQuestions]
  | cons q qs ih =>
    obtain ⟨hA, hvalid⟩ := h q (by simp)
    obtain ⟨c1, w, hq⟩ := handleQuestion_A_ok buf resolve c q hA hvalid
    obtain ⟨ih1, ih2⟩ := ih c1 (fun x hx => h x (by simp [hx]))
    rcases hrec : handleQuestions buf resolve c1 qs with ⟨c2, ws2, r⟩
    rw [hrec] at ih1 ih2
    simp only at ih1 ih2
    subst ih2
    simp [handleQuestions, hq, hrec, ih1]

/-- Witness for C5's amended statement at the two-question packet of the
counterexample. -/
theorem c5_every_question_answered_witness :
    (handleQuestions
        ([0, 0, 1, 32, 0, 2, 0, 0, 0, 0, 0, 0] ++
          [1, 97, 0, 0, 1, 0, 1] ++ [1, 98, 0, 0, 1, 0, 1])
        (fun _ => none) []
        [⟨[[97]], QType.A⟩, ⟨[[98]], QType.A⟩]).2.1.length = 2 ∧
    (handleQuestions
        ([0, 0, 1, 32, 0, 2, 0, 0, 0, 0, 0, 0] ++
          [1, 97, 0, 0, 1, 0, 1] ++ [1, 98, 0, 0, 1, 0, 1])
        (fun _ => none) []
        [⟨[[97]], QType.A⟩, ⟨[[98]], QType.A⟩]).2.2 = Except.ok () :=
  c5_every_question_answered _ (fun _ => none) []
    [⟨[[97]], QType.A⟩, ⟨[[98]], QType.A⟩] (by decide)

/-! ## Claim C1 -/

/-- Claim C1, counterexample: a datagram receive failure does not let the
UDP serving loop continue — the iteration terminates the loop (the `?` on
`recv_from` returns the error from `run_dns_server`). -/
theorem c1_recv_error_terminates_counterexample :
    UdpStep.loopContinues (udpIteration (Except.error "io")
      (fun _ => Except.error "x") (fun _ => none)
      (fun _ => Except.ok ()) 0).1 = false := rfl

/-- Claim C1 as amended: per-request error containment holds on the TLS
path (any spawned-task outcome, including an error, leaves the accept loop
on its next iteration) and for UDP parse failures (silently skipped), but
on the UDP path a datagram receive failure, an encoding failure from
`serialize_resource_record`, or a datagram send failure each propagate out
of `run_dns_server` and terminate the UDP serving loop. -/
theorem c1_error_containment_amended :
    (∀ (rateLimitOk : Bool) (taskOutcome : Except String Unit),
      dotAcceptIteration (Except.ok ()) rateLimitOk taskOutcome =
        LoopStep.next) ∧
    (∀ (q : List Nat) (parseFn : List Nat → Except String Packet)
        (resolve : DnsName → Option IpAddr)
        (send : List Nat → Except String Unit) (m : Nat) (e : String),
      parseFn q = Except.error e →
      udpIteration (Except.ok q) parseFn resolve send m =
        (UdpStep.cont none, m)) ∧
    (∀ (e : String) (parseFn : List Nat → Except String Packet)
        (resolve : DnsName → Option IpAddr)
        (send : List Nat → Except String Unit) (m : Nat),
      udpIteration (Except.error e) parseFn resolve send m =
        (UdpStep.terminated e, m)) ∧
    (∀ (q : List Nat) (parseFn : List Nat → Except String Packet)
        (resolve : DnsName → Option IpAddr)
        (send : List Nat → Except String Unit) (m : Nat)
        (packet : Packet) (q0 : Question) (qs : List Question),
      parseFn q = Except.ok packet → packet.questions = q0 :: qs →
      (∃ l ∈ q0.qname, 63 < l.length) →
      (udpIteration (Except.ok q) parseFn resolve send m).1 =
        UdpStep.terminated "Etiqueta demasiado larga") ∧
    (∀ (q : List Nat) (parseFn : List Nat → Except String Packet)
        (resolve : DnsName → Option IpAddr) (m : Nat)
        (packet : Packet) (q0 : Question) (qs : List Question) (e : String),
      parseFn q = Except.ok packet → packet.questions = q0 :: qs →
      validLabels q0.qname →
      udpIteration (Except.ok q) parseFn resolve
        (fun _ => Except.error e) m = (UdpStep.terminated e, m)) := by
  refine ⟨?_, ?_, ?_, ?_, ?_⟩
  · intro rl t
    cases rl <;> cases t <;> rfl
  · intro q parseFn resolve send m e hparse
    simp [udpIteration, hparse]
  · intro e parseFn resolve send m
    rfl
  · intro q parseFn resolve send m packet q0 qs hparse hqs hlong
    simp only [udpIteration, hparse, hqs]
    rcases hip : (resolve q0.qname).getD fallbackIp with a | o
    · simp only [hip]
      have herr := serialize_rr_error ⟨q0.qname, 1, 60, RData.A a⟩
        (responseHeader q) hlong
      rcases he : serialize_resource_record ⟨q0.qname, 1, 60, RData.A a⟩
          (responseHeader q) with ⟨b, r⟩
      rw [he] at herr
      simp only at herr
      subst herr
      simp [he]
    · simp only [hip]
      have herr := serialize_rr_error ⟨q0.qname, 1, 60, RData.AAAA o⟩
        (responseHeader q) hlong
      rcases he : serialize_resource_record ⟨q0.qname, 1, 60, RData.AAAA o⟩
          (responseHeader q) with ⟨b, r⟩
      rw [he] at herr
      simp only at herr
      subst herr
      simp [he]
  · intro q parseFn resolve m packet q0 qs e hparse hqs hvalid
    simp only [udpIteration, hparse, hqs]
    rcases hip : (resolve q0.qname).getD fallbackIp with a | o
    · simp [hip, serialize_rr_eq q0.qname 1 60 (RData.A a) _
        (fun l hl => (hvalid l hl).2) (by simp)]
    · simp [hip, serialize_rr_eq q0.qname 1 60 (RData.AAAA o) _
        (fun l hl => (hvalid l hl).2) (by simp)]

/-- Witness for C1's amended statement at concrete inputs. -/
theorem c1_error_containment_amended_witness :
    dotAcceptIteration (Except.ok ()) true (Except.error "boom") =
      LoopStep.next ∧
    udpIteration (Except.ok [255]) (fun _ => Except.error "bad")
      (fun _ => none) (fun _ => Except.ok ()) 3 = (UdpStep.cont none, 3) ∧
    udpIteration (Except.error "io") (fun _ => Except.error "x")
      (fun _ => none) (fun _ => Except.ok ()) 0 =
      (UdpStep.terminated "io", 0) ∧
    (udpIteration (Except.ok (List.replicate 12 0))
      (fun _ => Except.ok ⟨[⟨[List.replicate 64 98], QType.A⟩]⟩)
      (fun _ => none) (fun _ => Except.ok ()) 0).1 =
      UdpStep.terminated "Etiqueta demasiado larga" ∧
    udpIteration (Except.ok (List.replicate 12 0))
      (fun _ => Except.ok ⟨[⟨[[97]], QType.A⟩]⟩) (fun _ => none)
      (fun _ => Except.error "closed") 0 = (UdpStep.terminated "closed", 0) :=
  ⟨c1_error_containment_amended.1 true (Except.error "boom"),
   c1_error_containment_amended.2.1 [255] (fun _ => Except.error "bad")
     (fun _ => none) (fun _ => Except.ok ()) 3 "bad" rfl,
   c1_error_containment_amended.2.2.1 "io" (fun _ => Except.error "x")
     (fun _ => none) (fun _ => Except.ok ()) 0,
   c1_error_containment_amended.2.2.2.1 (List.replicate 12 0)
     (fun _ => Except.ok ⟨[⟨[List.replicate 64 98], QType.A⟩]⟩)
     (fun _ => none) (fun _ => Except.ok ()) 0
     ⟨[⟨[List.replicate 64 98], QType.A⟩]⟩ ⟨[List.replicate 64 98], QType.A⟩
     [] rfl rfl ⟨List.replicate 64 98, by simp, by simp⟩,
   c1_error_containment_amended.2.2.2.2 (List.replicate 12 0)
     (fun _ => Except.ok ⟨[⟨[[97]], QType.A⟩]⟩) (fun _ => none) 0
     ⟨[⟨[[97]], QType.A⟩]⟩ ⟨[[97]], QType.A⟩ [] "closed" rfl rfl (by decide)⟩

/-! ## Claim C2 -/

/-- Claim C2 (code bug): on a successfully parsed packet with an empty
question list the TLS path does skip it non-fatally (no writes, `Ok`
outcome), but the UDP loop's `packet.questions[0]` indexes out of bounds
and panics, aborting the UDP serving task rather than continuing. -/
theorem c2_empty_question_list_udp_panics :
    (udpIteration (Except.ok (List.replicate 12 0))
        (fun _ => Except.ok ⟨[]⟩) (fun _ => none)
        (fun _ => Except.ok ()) 0).1 = UdpStep.panicked ∧
    (handlePacket (List.replicate 12 0) (fun _ => none)
        (fun _ => Except.ok ⟨[]⟩) [] ⟨0, 0⟩).2.1 = [] ∧
    (handlePacket (List.replicate 12 0) (fun _ => none)
        (fun _ => Except.ok ⟨[]⟩) [] ⟨0, 0⟩).2.2.2 = Except.ok () :=
  ⟨rfl, rfl, rfl⟩

/-! ## Claims C4 and C6: a concrete single-question exchange -/

/-- A well-formed 19-byte raw query: transaction id `0x0000`, QDCOUNT 1,
one question for the name `a`, type A, class IN. -/
def sampleQuery : List Nat :=
  [0, 0, 1, 32, 0, 1, 0, 0, 0, 0, 0, 0, 1, 97, 0, 0, 1, 0, 1]

/-- The packet the external parser yields for `sampleQuery`. -/
def samplePacket : Packet := ⟨[⟨[[97]], QType.A⟩]⟩

/-- The response the handler builds for `sampleQuery` when resolution
fails (fallback `192.168.1.1`, TTL 60): 36 bytes, no framing. -/
def sampleResp : List Nat :=
  [0, 0, 129, 128, 0, 1, 0, 1, 0, 0, 0, 0, 1, 97, 0, 0, 1, 0, 1,
   1, 97, 0, 0, 1, 0, 1, 0, 0, 0, 60, 0, 4, 192, 168, 1, 1]

/-- Claim C4 (code bug): the TLS handler's reply write is the bare encoded
DNS response — its first two bytes are the echoed transaction id, not a
2-byte big-endian length of the remaining bytes, so the response is not
length-prefixed the way the request was read. -/
theorem c4_response_written_without_length_framing :
    (handlePacket sampleQuery (fun _ => none)
        (fun _ => Except.ok samplePacket) [] ⟨0, 0⟩).2.1 = [sampleResp] ∧
    ¬ (sampleResp.take 2 = u16_be (sampleResp.length - 2)) :=
  ⟨rfl, by decide⟩

/-- Claim C6 (code bug): with `DNS_DEFAULT_TTL` set to 120 the configured
default TTL is 120, yet the record encoded on the TLS path carries TTL 60:
`handle_dot_connection` passes the literal `60` to `build_dns_response`
and the parsed `default_ttl` is never used. -/
theorem c6_ttl_hardcoded_ignores_env :
    dotDefaultTtl (some 120) = 120 ∧
    (handlePacket sampleQuery (fun _ => none)
        (fun _ => Except.ok samplePacket) [] ⟨0, 0⟩).2.1 = [sampleResp] ∧
    decode_rr (sampleResp.drop 19) =
      some ([[97]], 1, 1, 60, 4, [192, 168, 1, 1]) ∧
    ¬ (60 = 120) :=
  ⟨rfl, rfl, by decide, by decide⟩

/-! ## Claim C7 -/

/-- Claim C7, counterexample: the UDP path drops an unparseable datagram
silently and continues, but does not increment the parse-failure counter
(`run_dns_server` has no access to `METRICS`). -/
theorem c7_udp_counter_not_incremented_counterexample :
    (udpIteration (Except.ok [255]) (fun _ => Except.error "bad")
        (fun _ => none) (fun _ => Except.ok ()) 5).1 = UdpStep.cont none ∧
    ¬ ((udpIteration (Except.ok [255]) (fun _ => Except.error "bad")
        (fun _ => none) (fun _ => Except.ok ()) 5).2 = 5 + 1) :=
  ⟨rfl, by decide⟩

/-- Claim C7 as amended: an unparseable input is dropped silently on both
transports and each serving loop goes on (the TLS handler returns `Ok`
with no writes, the UDP iteration continues with nothing sent), but only
the TLS path increments `failed_parses` by one; the UDP path leaves the
counter untouched. -/
theorem c7_parse_failure_amended :
    (∀ (buf : List Nat) (resolve : DnsName → Option IpAddr)
        (parseFn : List Nat → Except String Packet) (c : Cache)
        (m : Metrics) (e : String),
      parseFn buf = Except.error e →
      handlePacket buf resolve parseFn c m =
        (c, [], ⟨m.total_queries + 1, m.failed_parses + 1⟩, Except.ok ())) ∧
    (∀ (q : List Nat) (parseFn : List Nat → Except String Packet)
        (resolve : DnsName → Option IpAddr)
        (send : List Nat → Except String Unit) (m : Nat) (e : String),
      parseFn q = Except.error e →
      udpIteration (Except.ok q) parseFn resolve send m =
        (UdpStep.cont none, m)) := by
  constructor
  · intro buf resolve parseFn c m e hparse
    simp [handlePacket, hparse]
  · intro q parseFn resolve send m e hparse
    simp [udpIteration, hparse]

/-- Witness for C7's amended statement at concrete inputs. -/
theorem c7_parse_failure_amended_witness :
    handlePacket [255] (fun _ => none) (fun _ => Except.error "bad")
      [] ⟨4, 7⟩ = ([], [], ⟨5, 8⟩, Except.ok ()) ∧
    udpIteration (Except.ok [255]) (fun _ => Except.error "bad")
      (fun _ => none) (fun _ => Except.ok ()) 7 = (UdpStep.cont none, 7) :=
  ⟨c7_parse_failure_amended.1 [255] (fun _ => none)
     (fun _ => Except.error "bad") [] ⟨4, 7⟩ "bad" rfl,
   c7_parse_failure_amended.2 [255] (fun _ => Except.error "bad")
     (fun _ => none) (fun _ => Except.ok ()) 7 "bad" rfl⟩

end RustDns
